import Mathlib

/-!
Verification development for a subprocess-management library.

The definitions below are a shallow embedding of the source files
`childprocess.py` (module `ChildProcessIO` / `ChildProcess` /
`ChildProcessBuilder` / `PipelineBuilder`) and `ChildProcess.py`
(module `_Pipe` / `ProcessBuilder`).  Python values that matter to the
claims (stream dispositions, handles, builder fields, heap aliasing of
lists and dicts) are modelled explicitly; OS side effects (the actual
`subprocess.Popen` call, signals) are modelled as the data the code
passes to them.
-/

/-- Embedding of the `ChildProcessIO` enum of `childprocess.py`
(values PIPE, INHERIT, NULL, STDOUT). -/
inductive ChildProcessIOMode where
  | PIPE
  | INHERIT
  | NULL
  | STDOUT
deriving DecidableEq, Repr

/-- A Python file-like object (an `io.IOBase` instance) as the library
sees it: either an external caller-supplied handle or one of the three
standard-stream endpoints of a spawned process.  `buffered` records
whether the object is an `io.BufferedReader` wrapper (as
`Popen.stdout` is); `.raw` unwraps it. -/
inductive Handle where
  | external (id : Nat) (buffered : Bool)
  | procStdin (pid : Nat)
  | procStdout (pid : Nat) (buffered : Bool)
  | procStderr (pid : Nat)
deriving DecidableEq, Repr

/-- The `.raw` attribute of a buffered reader (identity on raw handles). -/
def Handle.raw : Handle → Handle
  | Handle.external i _ => Handle.external i false
  | Handle.procStdout p _ => Handle.procStdout p false
  | h => h

/-- Whether the object is an `io.BufferedReader` instance. -/
def Handle.isBuffered : Handle → Bool
  | Handle.external _ b => b
  | Handle.procStdout _ b => b
  | _ => false

/-- A value the builder attribute `_stdin` can hold after the setter
ran: an enum sentinel, a string payload, or a file-like object. -/
inductive StdinVal where
  | mode (d : ChildProcessIOMode)
  | str (s : String)
  | handle (h : Handle)
deriving DecidableEq, Repr

/-- A value the builder attributes `_stdout` / `_stderr` can hold
after their setters ran: an enum sentinel or a file-like object. -/
inductive StreamVal where
  | mode (d : ChildProcessIOMode)
  | handle (h : Handle)
deriving DecidableEq, Repr

/-! ## shlex.split (POSIX mode, whitespace_split), used by the args setter -/

/-- Characters `shlex` treats as whitespace. -/
def shWhitespace (c : Char) : Bool := c = ' ' || c = '\t' || c = '\r' || c = '\n'

/-- The single-quote character. -/
def squoteChar : Char := Char.ofNat 39

/-- The double-quote character. -/
def dquoteChar : Char := Char.ofNat 34

/-- Tokenizer states of `shlex` in POSIX mode: between tokens, inside a
word, after an escape character (outside / inside double quotes), and
inside single / double quotes. -/
inductive ShMode where
  | ws
  | word
  | esc
  | squote
  | dquote
  | dqesc
deriving DecidableEq, Repr

/-- One-pass embedding of `shlex.split` (POSIX rules, whitespace
splitting, no comments): `cur` is the current token reversed, `quoted`
records whether the current token saw a quote (so an empty quoted
token is still emitted), `acc` is the reversed list of finished
tokens.  Unbalanced quotes and a trailing escape raise `ValueError`
exactly as `shlex` does. -/
def shlexAux : List Char → ShMode → Bool → List Char → List String →
    Except String (List String)
  | [], ShMode.ws, _, _, acc => Except.ok acc.reverse
  | [], ShMode.word, quoted, cur, acc =>
      if cur.isEmpty && !quoted then Except.ok acc.reverse
      else Except.ok (String.mk cur.reverse :: acc).reverse
  | [], ShMode.esc, _, _, _ => Except.error "No escaped character"
  | [], ShMode.dqesc, _, _, _ => Except.error "No escaped character"
  | [], ShMode.squote, _, _, _ => Except.error "No closing quotation"
  | [], ShMode.dquote, _, _, _ => Except.error "No closing quotation"
  | c :: rest, ShMode.ws, _, _, acc =>
      if shWhitespace c then shlexAux rest ShMode.ws false [] acc
      else if c = '\\' then shlexAux rest ShMode.esc false [] acc
      else if c = squoteChar then shlexAux rest ShMode.squote true [] acc
      else if c = dquoteChar then shlexAux rest ShMode.dquote true [] acc
      else shlexAux rest ShMode.word false [c] acc
  | c :: rest, ShMode.word, quoted, cur, acc =>
      if shWhitespace c then
        if cur.isEmpty && !quoted then shlexAux rest ShMode.ws false [] acc
        else shlexAux rest ShMode.ws false [] (String.mk cur.reverse :: acc)
      else if c = '\\' then shlexAux rest ShMode.esc quoted cur acc
      else if c = squoteChar then shlexAux rest ShMode.squote true cur acc
      else if c = dquoteChar then shlexAux rest ShMode.dquote true cur acc
      else shlexAux rest ShMode.word quoted (c :: cur) acc
  | c :: rest, ShMode.esc, quoted, cur, acc =>
      shlexAux rest ShMode.word quoted (c :: cur) acc
  | c :: rest, ShMode.squote, quoted, cur, acc =>
      if c = squoteChar then shlexAux rest ShMode.word quoted cur acc
      else shlexAux rest ShMode.squote quoted (c :: cur) acc
  | c :: rest, ShMode.dquote, quoted, cur, acc =>
      if c = dquoteChar then shlexAux rest ShMode.word quoted cur acc
      else if c = '\\' then shlexAux rest ShMode.dqesc quoted cur acc
      else shlexAux rest ShMode.dquote quoted (c :: cur) acc
  | c :: rest, ShMode.dqesc, quoted, cur, acc =>
      if c = dquoteChar || c = '\\' then shlexAux rest ShMode.dquote quoted (c :: cur) acc
      else shlexAux rest ShMode.dquote quoted (c :: '\\' :: cur) acc

/-- Embedding of `shlex.split(s)` as called by `ChildProcessBuilder.args`. -/
def shlexSplit (s : String) : Except String (List String) :=
  shlexAux s.toList ShMode.ws false [] []

/-! ## ChildProcessBuilder: fields and property setters -/

/-- The builder state of `ChildProcessBuilder` after its setters ran:
`args` tokens, `env` key/value pairs, `cwd`, and the three stream
dispositions.  (`cwd` normalization by `os.path.normpath` is not
modelled; the path is kept as stored, which no claim depends on.) -/
structure ChildProcessBuilder where
  args : List String
  env : List (String × String)
  cwd : String
  stdin : StdinVal
  stdout : StreamVal
  stderr : StreamVal
deriving DecidableEq, Repr

/-- Raw input to the `args` setter: a string, a list/tuple of tokens, or
any other object (for which the setter body has no branch at all). -/
inductive ArgsArg where
  | str (s : String)
  | list (l : List String)
  | other
deriving DecidableEq, Repr

/-- Embedding of the `ChildProcessBuilder.args` setter: a string is
tokenized by `shlex.split`; a list/tuple is converted element-wise by
`str` (identity on strings here); any other input falls through the
`if`/`elif` chain and leaves `_args` untouched.  There is no emptiness
check anywhere in the setter. -/
def setArgs (b : ChildProcessBuilder) (v : ArgsArg) :
    Except String ChildProcessBuilder :=
  match v with
  | ArgsArg.str s =>
      match shlexSplit s with
      | Except.ok toks => Except.ok { b with args := toks }
      | Except.error e => Except.error e
  | ArgsArg.list l => Except.ok { b with args := l }
  | ArgsArg.other => Except.ok b

/-- Raw input to the `stdin` setter: `None`, a string, a file-like
object, an enum sentinel, or anything else. -/
inductive StdinArg where
  | pynone
  | str (s : String)
  | handle (h : Handle)
  | mode (d : ChildProcessIOMode)
  | other
deriving DecidableEq, Repr

/-- Embedding of the `ChildProcessBuilder.stdin` setter: `None` becomes
PIPE; a `BufferedReader` is unwrapped to its `.raw` stream; strings and
file-like objects are stored; enum values are stored except `STDOUT`,
which raises `ValueError`; anything else raises `TypeError`. -/
def setStdin (b : ChildProcessBuilder) (v : StdinArg) :
    Except String ChildProcessBuilder :=
  match v with
  | StdinArg.pynone => Except.ok { b with stdin := StdinVal.mode ChildProcessIOMode.PIPE }
  | StdinArg.handle h =>
      if h.isBuffered then Except.ok { b with stdin := StdinVal.handle h.raw }
      else Except.ok { b with stdin := StdinVal.handle h }
  | StdinArg.str s => Except.ok { b with stdin := StdinVal.str s }
  | StdinArg.mode d =>
      if d = ChildProcessIOMode.STDOUT then
        Except.error "Cannot pipe the output of a process to its own input"
      else Except.ok { b with stdin := StdinVal.mode d }
  | StdinArg.other =>
      Except.error "Input can be redirected from a string, a file-like object, or a special value"

/-- Raw input to the `stdout` / `stderr` setters. -/
inductive StreamArg where
  | pynone
  | handle (h : Handle)
  | mode (d : ChildProcessIOMode)
  | other
deriving DecidableEq, Repr

/-- Embedding of the `ChildProcessBuilder.stdout` setter: `None` becomes
PIPE; any file-like object and every enum value — including `STDOUT` —
is stored without complaint; anything else raises `TypeError`. -/
def setStdout (b : ChildProcessBuilder) (v : StreamArg) :
    Except String ChildProcessBuilder :=
  match v with
  | StreamArg.pynone => Except.ok { b with stdout := StreamVal.mode ChildProcessIOMode.PIPE }
  | StreamArg.handle h => Except.ok { b with stdout := StreamVal.handle h }
  | StreamArg.mode d => Except.ok { b with stdout := StreamVal.mode d }
  | StreamArg.other =>
      Except.error "Output can be redirected to a file-like object or a special value"

/-- Embedding of the `ChildProcessBuilder.stderr` setter: same shape as
the stdout setter. -/
def setStderr (b : ChildProcessBuilder) (v : StreamArg) :
    Except String ChildProcessBuilder :=
  match v with
  | StreamArg.pynone => Except.ok { b with stderr := StreamVal.mode ChildProcessIOMode.PIPE }
  | StreamArg.handle h => Except.ok { b with stderr := StreamVal.handle h }
  | StreamArg.mode d => Except.ok { b with stderr := StreamVal.mode d }
  | StreamArg.other =>
      Except.error "Error output can be redirected to a file-like object or a special value"

/-- Embedding of `ChildProcessBuilder.__init__`, which assigns the
attributes in source order (args, env, cwd, stdin, stdout, stderr),
each through its property setter.  The env setter is modelled as
storing the given pairs (its `str` coercion is the identity on
strings); `env=None` resolution to `os.environ` is the caller's
concrete argument here. -/
def mkChildProcessBuilder (args : ArgsArg) (env : List (String × String))
    (cwd : String) (sin : StdinArg) (sout serr : StreamArg) :
    Except String ChildProcessBuilder :=
  match setArgs (ChildProcessBuilder.mk [] [] "" (StdinVal.mode ChildProcessIOMode.PIPE)
      (StreamVal.mode ChildProcessIOMode.PIPE) (StreamVal.mode ChildProcessIOMode.PIPE)) args with
  | Except.error e => Except.error e
  | Except.ok b1 =>
    match setStdin { b1 with env := env, cwd := cwd } sin with
    | Except.error e => Except.error e
    | Except.ok b2 =>
      match setStdout b2 sout with
      | Except.error e => Except.error e
      | Except.ok b3 =>
        match setStderr b3 serr with
        | Except.error e => Except.error e
        | Except.ok b4 => Except.ok b4

/-! ## ChildProcess: spawn-time stream resolution and accessors -/

/-- What `_make_stdin` passes to `Popen` for the stdin stream. -/
inductive PopenStdinArg where
  | usePipe
  | inheritParent
  | devnull
  | fromHandle (h : Handle)
deriving DecidableEq, Repr

/-- Embedding of `ChildProcess._make_stdin`: returns the `Popen`
argument, the deferred input value (the `else` branch returns the raw
stdin value itself as deferred input), and the `_stdin_writeable` flag
set as a side effect. -/
def make_stdin (v : StdinVal) : PopenStdinArg × Option StdinVal × Bool :=
  match v with
  | StdinVal.mode ChildProcessIOMode.PIPE => (PopenStdinArg.usePipe, none, true)
  | StdinVal.mode ChildProcessIOMode.INHERIT => (PopenStdinArg.inheritParent, none, false)
  | StdinVal.mode ChildProcessIOMode.NULL => (PopenStdinArg.devnull, none, false)
  | StdinVal.handle h => (PopenStdinArg.fromHandle h, none, false)
  | StdinVal.str s => (PopenStdinArg.usePipe, some (StdinVal.str s), true)
  | StdinVal.mode ChildProcessIOMode.STDOUT =>
      (PopenStdinArg.usePipe, some (StdinVal.mode ChildProcessIOMode.STDOUT), true)

/-- What `_make_stdout` passes to `Popen` for the stdout stream. -/
inductive PopenOutArg where
  | usePipe
  | inheritParent
  | devnull
  | fromHandle (h : Handle)
deriving DecidableEq, Repr

/-- Embedding of `ChildProcess._make_stdout`: note the first branch
tests `stdout == PIPE or stdout == STDOUT`, so the `STDOUT` sentinel is
treated exactly like `PIPE` (readable pipe). -/
def make_stdout (v : StreamVal) : PopenOutArg × Bool :=
  match v with
  | StreamVal.mode ChildProcessIOMode.PIPE => (PopenOutArg.usePipe, true)
  | StreamVal.mode ChildProcessIOMode.STDOUT => (PopenOutArg.usePipe, true)
  | StreamVal.mode ChildProcessIOMode.INHERIT => (PopenOutArg.inheritParent, false)
  | StreamVal.mode ChildProcessIOMode.NULL => (PopenOutArg.devnull, false)
  | StreamVal.handle h => (PopenOutArg.fromHandle h, false)

/-- What `_make_stderr` passes to `Popen` for the stderr stream. -/
inductive PopenErrArg where
  | usePipe
  | mergeStdout
  | inheritParent
  | devnull
  | fromHandle (h : Handle)
deriving DecidableEq, Repr

/-- Embedding of `ChildProcess._make_stderr`: only `PIPE` sets the
`_stderr_readable` flag. -/
def make_stderr (v : StreamVal) : PopenErrArg × Bool :=
  match v with
  | StreamVal.mode ChildProcessIOMode.PIPE => (PopenErrArg.usePipe, true)
  | StreamVal.mode ChildProcessIOMode.STDOUT => (PopenErrArg.mergeStdout, false)
  | StreamVal.mode ChildProcessIOMode.INHERIT => (PopenErrArg.inheritParent, false)
  | StreamVal.mode ChildProcessIOMode.NULL => (PopenErrArg.devnull, false)
  | StreamVal.handle h => (PopenErrArg.fromHandle h, false)

/-- The `_stdin_writeable` flag of a process whose stdin disposition at
spawn was `v`. -/
def stdinWriteable (v : StdinVal) : Bool := (make_stdin v).2.2

/-- The `_stdout_readable` flag of a process whose stdout disposition at
spawn was `v`. -/
def stdoutReadable (v : StreamVal) : Bool := (make_stdout v).2

/-- The `_stderr_readable` flag of a process whose stderr disposition at
spawn was `v`. -/
def stderrReadable (v : StreamVal) : Bool := (make_stderr v).2

/-- A spawned `ChildProcess`: pid assigned at spawn, the echoed args /
env / cwd, and the three dispositions the spawn resolved (from which
the accessibility flags are derived exactly as `__init__` does). -/
structure SpawnedProc where
  pid : Nat
  args : List String
  env : List (String × String)
  cwd : String
  stdinDisp : StdinVal
  stdoutDisp : StreamVal
  stderrDisp : StreamVal
deriving DecidableEq, Repr

/-- A default process value used only as the out-of-range default of
`List.getD` in theorem statements. -/
def dummyProc : SpawnedProc :=
  SpawnedProc.mk 0 [] [] "" (StdinVal.mode ChildProcessIOMode.PIPE)
    (StreamVal.mode ChildProcessIOMode.PIPE) (StreamVal.mode ChildProcessIOMode.PIPE)

/-- Embedding of `ChildProcessBuilder.spawn` as far as the created
process's fields are concerned: `ChildProcess(self.args, self.env,
self.cwd, self.stdin, self.stdout, self.stderr)`, with `pid` the
OS-assigned identifier (spawn order index in the pipeline model). -/
def cpbSpawn (b : ChildProcessBuilder) (pid : Nat) : SpawnedProc :=
  SpawnedProc.mk pid b.args b.env b.cwd b.stdin b.stdout b.stderr

/-- Embedding of the `ChildProcess.stdin` property: raises
`RuntimeError` unless `_stdin_writeable`, else returns the pipe
endpoint bound by `Popen`. -/
def procStdinGet (p : SpawnedProc) : Except String Handle :=
  if stdinWriteable p.stdinDisp then Except.ok (Handle.procStdin p.pid)
  else Except.error "The stdin pipe of the process is inaccessible"

/-- Embedding of the `ChildProcess.stdout` property: raises
`RuntimeError` unless `_stdout_readable`, else returns the
`BufferedReader` endpoint bound by `Popen`. -/
def procStdoutGet (p : SpawnedProc) : Except String Handle :=
  if stdoutReadable p.stdoutDisp then Except.ok (Handle.procStdout p.pid true)
  else Except.error "The stdout pipe of the process is inaccessible"

/-- Embedding of the `ChildProcess.stderr` property: raises
`RuntimeError` unless `_stderr_readable`. -/
def procStderrGet (p : SpawnedProc) : Except String Handle :=
  if stderrReadable p.stderrDisp then Except.ok (Handle.procStderr p.pid)
  else Except.error "The stderr pipe of the process is inaccessible"

/-- Python truthiness of a deferred-input value: an empty string is
falsy, everything else relevant here is truthy. -/
def pyTruthyStdin : StdinVal → Bool
  | StdinVal.str s => !(s == "")
  | _ => true

/-- The IO actions `ChildProcess.__init__` performs on the stdin pipe
right after `Popen` returns. -/
inductive PostSpawnAction where
  | writeStdin (v : StdinVal)
  | closeStdin
deriving DecidableEq, Repr

/-- Embedding of the tail of `ChildProcess.__init__`: after the process
starts, `if deferred_input: self._popen.stdin.write(deferred_input)` —
a single write when the deferred value is truthy, and nothing else.
No `close` is ever called on the stdin pipe. -/
def childInitPostSpawnActions (stdinDisp : StdinVal) : List PostSpawnAction :=
  match (make_stdin stdinDisp).2.1 with
  | some v => if pyTruthyStdin v then [PostSpawnAction.writeStdin v] else []
  | none => []

/-! ## ChildProcess: lifecycle state machine -/

/-- Host-platform capabilities checked via `hasattr(signal, ...)`. -/
structure Platform where
  hasSIGCONT : Bool
  hasSIGTSTP : Bool
deriving DecidableEq, Repr

/-- Signals the lifecycle operations send. -/
inductive UnixSignal where
  | SIGCONT
  | SIGTSTP
deriving DecidableEq, Repr

/-- The polled lifecycle snapshot of a `ChildProcess`: the exit code as
reported by `Popen.poll` (None while running) and the internally
tracked `_is_stopped` flag. -/
structure ProcState where
  exitCode : Option Int
  stoppedFlag : Bool
deriving DecidableEq, Repr

/-- Embedding of the `ChildProcess.exit_code` property (a poll followed
by reading `returncode`). -/
def exit_code (p : ProcState) : Option Int := p.exitCode

/-- Embedding of `ChildProcess.is_finished`. -/
def is_finished (p : ProcState) : Bool := (exit_code p).isSome

/-- Embedding of `ChildProcess.is_stopped`. -/
def is_stopped (p : ProcState) : Bool := !(is_finished p) && p.stoppedFlag

/-- Embedding of `ChildProcess.is_running`. -/
def is_running (p : ProcState) : Bool := !(is_finished p || is_stopped p)

/-- Embedding of `ChildProcess.start`: the only check performed is the
platform capability check; on a capable platform it clears the stopped
flag and sends SIGCONT, whatever the current state. -/
def childStart (plat : Platform) (p : ProcState) :
    Except String (ProcState × List UnixSignal) :=
  if plat.hasSIGCONT = false then
    Except.error "No platform support for stopping or starting processes"
  else Except.ok ({ p with stoppedFlag := false }, [UnixSignal.SIGCONT])

/-- Embedding of `ChildProcess.stop`: capability check, send SIGTSTP,
set the stopped flag. -/
def childStop (plat : Platform) (p : ProcState) :
    Except String (ProcState × List UnixSignal) :=
  if plat.hasSIGTSTP = false then
    Except.error "No platform support for stopping or starting processes"
  else Except.ok ({ p with stoppedFlag := true }, [UnixSignal.SIGTSTP])

/-! ## The `_Pipe` ownership model of `ChildProcess.py` -/

/-- Embedding of the `_Pipe` class: at most one reading and one writing
process, identified by ids. -/
structure PipeConn where
  read_owner : Option Nat
  write_owner : Option Nat
deriving DecidableEq, Repr

/-- Embedding of the `_Pipe.read_owner` property setter. -/
def readOwnerSet (pc : PipeConn) (proc : Nat) : Except String PipeConn :=
  if pc.read_owner.isSome then
    Except.error "Pipe is already being read by another process"
  else if pc.write_owner = some proc then
    Except.error "A process cannot write to its own input"
  else Except.ok { pc with read_owner := some proc }

/-- Embedding of the `_Pipe.write_owner` property setter. -/
def writeOwnerSet (pc : PipeConn) (proc : Nat) : Except String PipeConn :=
  if pc.write_owner.isSome then
    Except.error "Pipe is already being written to by another process"
  else if pc.read_owner = some proc then
    Except.error "A process cannot write to its own input"
  else Except.ok { pc with write_owner := some proc }

/-- An owner-assignment attempt on a pipe connection. -/
inductive PipeOp where
  | setRead (p : Nat)
  | setWrite (p : Nat)
deriving DecidableEq, Repr

/-- Apply one assignment attempt: on error the exception propagates to
the caller and the pipe is left unchanged (the setter assigns nothing
on its error paths). -/
def applyPipeOp (pc : PipeConn) (op : PipeOp) : PipeConn :=
  match op with
  | PipeOp.setRead p =>
      match readOwnerSet pc p with
      | Except.ok pc2 => pc2
      | Except.error _ => pc
  | PipeOp.setWrite p =>
      match writeOwnerSet pc p with
      | Except.ok pc2 => pc2
      | Except.error _ => pc

/-- Apply a sequence of assignment attempts in order. -/
def applyPipeOps (pc : PipeConn) (ops : List PipeOp) : PipeConn :=
  ops.foldl applyPipeOp pc

/-- The ownership invariant: whenever both owners are set they are
different processes. -/
def pipeOk (pc : PipeConn) : Bool :=
  match pc.read_owner, pc.write_owner with
  | some a, some b => !(a == b)
  | _, _ => true

/-! ## PipelineBuilder -/

/-- A pipeline command entry: either a command-line string or a
pre-tokenized argument list, exactly the two shapes the args setter
accepts. -/
inductive Cmd where
  | str (s : String)
  | toks (l : List String)
deriving DecidableEq, Repr

/-- View a pipeline command as input to the `args` setter. -/
def argsArgOfCmd : Cmd → ArgsArg
  | Cmd.str s => ArgsArg.str s
  | Cmd.toks l => ArgsArg.list l

/-- The token list a command contributes: `str` goes through
`shlex.split`, a pre-tokenized list is kept. -/
def tokenizeCmd : Cmd → Except String (List String)
  | Cmd.str s => shlexSplit s
  | Cmd.toks l => Except.ok l

/-- View a stored stdin value as input to the stdin setter (used when
`spawn_all` assigns `builder.stdin = next_input`). -/
def stdinArgOfVal : StdinVal → StdinArg
  | StdinVal.mode d => StdinArg.mode d
  | StdinVal.str s => StdinArg.str s
  | StdinVal.handle h => StdinArg.handle h

/-- View a stored stream value as input to the stdout/stderr setters. -/
def streamArgOfVal : StreamVal → StreamArg
  | StreamVal.mode d => StreamArg.mode d
  | StreamVal.handle h => StreamArg.handle h

/-- What the stdin setter stores when handed a stored stdin value:
buffered readers are unwrapped to `.raw`, everything else is kept
(`STDOUT` would raise instead). -/
def storedStdin : StdinVal → StdinVal
  | StdinVal.handle h => if h.isBuffered then StdinVal.handle h.raw else StdinVal.handle h
  | v => v

/-- The `PipelineBuilder` state: commands plus the shared env / cwd /
stderr and the endpoint stdin / stdout dispositions.  The constructor
defaults (`None` becoming `os.environ`, `os.getcwd()`, and PIPE for the
three streams) are resolved by the caller of this record. -/
structure PipelineBuilder where
  commands : List Cmd
  env : List (String × String)
  cwd : String
  stdin : StdinVal
  stdout : StreamVal
  stderr : StreamVal
deriving DecidableEq, Repr

/-- Raw input to the `PipelineBuilder.commands` setter. -/
inductive PipelineCommandsArg where
  | str (s : String)
  | list (l : List Cmd)
  | other
deriving DecidableEq, Repr

/-- Splitting a character list at every occurrence of `sep`, keeping
empty segments — the semantics of Python `str.split` with an explicit
single-character separator. -/
def splitOnCharL (sep : Char) : List Char → List (List Char)
  | [] => [[]]
  | c :: rest =>
      if c = sep then [] :: splitOnCharL sep rest
      else
        match splitOnCharL sep rest with
        | [] => [[c]]
        | t :: ts => (c :: t) :: ts

/-- Embedding of Python `s.split("|")`. -/
def pySplitPipe (s : String) : List String :=
  (splitOnCharL '|' s.toList).map (fun l => String.mk l)

/-- Embedding of the `PipelineBuilder.commands` setter: a string is
split at every literal pipe character (no quote or escape awareness),
then the resulting list is rejected only if empty. -/
def pipelineSetCommands (v : PipelineCommandsArg) : Except String (List Cmd) :=
  match v with
  | PipelineCommandsArg.str s =>
      let value := (pySplitPipe s).map Cmd.str
      if value.isEmpty then Except.error "At least one command must be supplied"
      else Except.ok value
  | PipelineCommandsArg.list l =>
      if l.isEmpty then Except.error "At least one command must be supplied"
      else Except.ok l
  | PipelineCommandsArg.other =>
      Except.error "The commands should be supplied as a list or as a string with pipe characters"

/-- The loop of `PipelineBuilder.spawn_all` over `self.commands[:-1]`:
assign `builder.args = command` and `builder.stdin = next_input`, spawn
(the next free pid is the spawn-order index), append the process, and
move the cursor to `proc.stdout` (which raises if that stdout is not
readable).  Returns the final builder, cursor, next pid and process
list. -/
def spawnAllLoop : List Cmd → ChildProcessBuilder → StdinVal → Nat → List SpawnedProc →
    Except String (ChildProcessBuilder × StdinVal × Nat × List SpawnedProc)
  | [], b, next_input, pid, res => Except.ok (b, next_input, pid, res)
  | c :: rest, b, next_input, pid, res =>
      match setArgs b (argsArgOfCmd c) with
      | Except.error e => Except.error e
      | Except.ok b1 =>
        match setStdin b1 (stdinArgOfVal next_input) with
        | Except.error e => Except.error e
        | Except.ok b2 =>
          match procStdoutGet (cpbSpawn b2 pid) with
          | Except.error e => Except.error e
          | Except.ok h =>
              spawnAllLoop rest b2 (StdinVal.handle h) (pid + 1) (res ++ [cpbSpawn b2 pid])

/-- Embedding of `PipelineBuilder.spawn_all`: build one
`ChildProcessBuilder([], env=self.env, cwd=self.cwd,
stderr=self.stderr)` (stdin and stdout defaulting to PIPE), run the
loop over all commands but the last, then configure and spawn the last
command with the cursor as stdin and the pipeline's stdout. -/
def spawnAll (pb : PipelineBuilder) : Except String (List SpawnedProc) :=
  match mkChildProcessBuilder (ArgsArg.list []) pb.env pb.cwd StdinArg.pynone
      StreamArg.pynone (streamArgOfVal pb.stderr) with
  | Except.error e => Except.error e
  | Except.ok b0 =>
    match spawnAllLoop pb.commands.dropLast b0 pb.stdin 0 [] with
    | Except.error e => Except.error e
    | Except.ok (b, next_input, pid, res) =>
      match pb.commands.getLast? with
      | none => Except.error "IndexError: list index out of range"
      | some last =>
        match setArgs b (argsArgOfCmd last) with
        | Except.error e => Except.error e
        | Except.ok b1 =>
          match setStdin b1 (stdinArgOfVal next_input) with
          | Except.error e => Except.error e
          | Except.ok b2 =>
            match setStdout b2 (streamArgOfVal pb.stdout) with
            | Except.error e => Except.error e
            | Except.ok b3 => Except.ok (res ++ [cpbSpawn b3 pid])

/-! ## Reference semantics for builder fields (spawn snapshots vs aliasing) -/

/-- A minimal Python heap: list objects and dict objects addressed by
allocation index. -/
structure PyHeap where
  lists : List (List String)
  dicts : List (List (String × String))
deriving DecidableEq, Repr

/-- A `ChildProcessBuilder` viewed at the object level: `_args` and
`_env` are references into the heap, `_cwd` is an immutable string. -/
structure BuilderR where
  argsRef : Nat
  envRef : Nat
  cwd : String
deriving DecidableEq, Repr

/-- A `ChildProcess` viewed at the object level: `__init__` stores the
very objects it was handed (`self._args = args`, `self._env = env`). -/
structure ProcessR where
  argsRef : Nat
  envRef : Nat
  cwd : String
deriving DecidableEq, Repr

/-- The args setter at the object level: `[str(obj) for obj in value]`
(and likewise `shlex.split`) allocates a fresh list and rebinds
`_args` to it. -/
def builderSetArgsList (h : PyHeap) (b : BuilderR) (l : List String) :
    PyHeap × BuilderR :=
  ({ h with lists := h.lists ++ [l] }, { b with argsRef := h.lists.length })

/-- The env setter at the object level: the dict comprehension
`{str(k):str(v) for k,v in value.items()}` allocates a fresh dict and
rebinds `_env` to it. -/
def builderSetEnvDict (h : PyHeap) (b : BuilderR) (d : List (String × String)) :
    PyHeap × BuilderR :=
  ({ h with dicts := h.dicts ++ [d] }, { b with envRef := h.dicts.length })

/-- Embedding of `ChildProcessBuilder.spawn` at the object level: the
spawned process receives the builder's current references, not
copies. -/
def builderSpawnR (b : BuilderR) : ProcessR :=
  ProcessR.mk b.argsRef b.envRef b.cwd

/-- In-place list mutation (`lst.append(x)`) on a heap object. -/
def listAppendInPlace (h : PyHeap) (r : Nat) (x : String) : PyHeap :=
  { h with lists := h.lists.set r ((h.lists.getD r []) ++ [x]) }

/-- Python dict assignment `d[k] = v`: replace the value of an existing
key, else append the new binding. -/
def pyDictSetKey (d : List (String × String)) (k v : String) :
    List (String × String) :=
  if d.any (fun kv => kv.1 == k) then
    d.map (fun kv => if kv.1 == k then (k, v) else kv)
  else d ++ [(k, v)]

/-- In-place dict mutation (`builder.env[k] = v`, sanctioned by the env
property documentation) on a heap object. -/
def dictSetInPlace (h : PyHeap) (r : Nat) (k v : String) : PyHeap :=
  { h with dicts := h.dicts.set r (pyDictSetKey (h.dicts.getD r []) k v) }

/-- The `ChildProcess.args` read-only property: dereference the stored
list object. -/
def procArgsEcho (h : PyHeap) (p : ProcessR) : List String :=
  h.lists.getD p.argsRef []

/-- The `ChildProcess.env` read-only property: dereference the stored
dict object. -/
def procEnvEcho (h : PyHeap) (p : ProcessR) : List (String × String) :=
  h.dicts.getD p.envRef []

/-- A builder with every field at its setter default (args empty, PIPE
everywhere), used as a concrete instantiation point in theorems. -/
def defaultBuilder : ChildProcessBuilder :=
  ChildProcessBuilder.mk [] [] "" (StdinVal.mode ChildProcessIOMode.PIPE)
    (StreamVal.mode ChildProcessIOMode.PIPE) (StreamVal.mode ChildProcessIOMode.PIPE)

/-- A concrete two-stage pipeline (`echo foo | wc -w` pre-tokenized)
with non-default endpoint dispositions, used to instantiate the
pipeline theorem. -/
def pbEx : PipelineBuilder :=
  PipelineBuilder.mk [Cmd.toks ["echo", "foo"], Cmd.toks ["wc", "-w"]]
    [("A", "B")] "." (StdinVal.mode ChildProcessIOMode.PIPE)
    (StreamVal.mode ChildProcessIOMode.NULL) (StreamVal.mode ChildProcessIOMode.INHERIT)

/-- The processes `spawn_all` produces for `pbEx`. -/
def procsEx : List SpawnedProc :=
  [SpawnedProc.mk 0 ["echo", "foo"] [("A", "B")] "."
      (StdinVal.mode ChildProcessIOMode.PIPE)
      (StreamVal.mode ChildProcessIOMode.PIPE) (StreamVal.mode ChildProcessIOMode.INHERIT),
   SpawnedProc.mk 1 ["wc", "-w"] [("A", "B")] "."
      (StdinVal.handle (Handle.procStdout 0 false))
      (StreamVal.mode ChildProcessIOMode.NULL) (StreamVal.mode ChildProcessIOMode.INHERIT)]

/-! ## Helper lemmas on lists -/

/-- Indexing an appended list below the length of the first part. -/
theorem getD_append_left {α : Type} (l1 l2 : List α) (i : Nat) (d : α)
    (h : i < l1.length) : (l1 ++ l2).getD i d = l1.getD i d := by
  induction l1 generalizing i with
  | nil => simp at h
  | cons a t ih =>
    cases i with
    | zero => rfl
    | succ j => exact ih j (Nat.lt_of_succ_lt_succ h)

/-- Indexing an appended list at an offset past the first part. -/
theorem getD_append_add {α : Type} (l1 l2 : List α) (j : Nat) (d : α) :
    (l1 ++ l2).getD (l1.length + j) d = l2.getD j d := by
  induction l1 with
  | nil => simp
  | cons a t ih =>
    have hidx : (a :: t).length + j = (t.length + j) + 1 := by
      simp [List.length_cons]; omega
    rw [hidx]
    exact ih

/-- Reading back an in-place update at the updated index. -/
theorem getD_set_self {α : Type} (l : List α) (r : Nat) (v d : α)
    (h : r < l.length) : (l.set r v).getD r d = v := by
  induction l generalizing r with
  | nil => simp at h
  | cons a t ih =>
    cases r with
    | zero => rfl
    | succ j => exact ih j (Nat.lt_of_succ_lt_succ h)

/-- `dropLast` preserves all indices except the final one. -/
theorem getD_dropLast {α : Type} (l : List α) (i : Nat) (d : α)
    (h : i + 1 < l.length) : l.dropLast.getD i d = l.getD i d := by
  induction l generalizing i with
  | nil => simp at h
  | cons a t ih =>
    cases t with
    | nil => simp at h
    | cons b2 t2 =>
      cases i with
      | zero => rfl
      | succ j =>
        exact ih j (Nat.lt_of_succ_lt_succ h)

/-- A list with a last element is nonempty. -/
theorem getLast?_some_ne_nil {α : Type} (l : List α) (x : α)
    (h : l.getLast? = some x) : l ≠ [] := by
  cases l with
  | nil => simp at h
  | cons a t => simp

/-- The last element sits at index `length - 1`. -/
theorem getLast?_getD {α : Type} (l : List α) (x : α) (d : α)
    (h : l.getLast? = some x) : l.getD (l.length - 1) d = x := by
  induction l with
  | nil => simp at h
  | cons a t ih =>
    cases t with
    | nil =>
      simp [List.getLast?] at h
      simp [h]
    | cons b2 t2 =>
      rw [List.getLast?_cons_cons] at h
      have h2 := ih h
      simpa [List.length_cons] using h2

/-! ## Claim theorems: lifecycle queries and start -/

/-- C6: for every combination of the polled exit status and the tracked
stopped flag, exactly one of `is_running`, `is_stopped`, `is_finished`
returns true, and `is_stopped` is never true on a finished process. -/
theorem C6_state_queries_partition (p : ProcState) :
    ((is_running p).toNat + (is_stopped p).toNat + (is_finished p).toNat = 1)
    ∧ (is_finished p && is_stopped p) = false := by
  obtain ⟨ec, fl⟩ := p
  cases ec <;> cases fl <;> exact ⟨rfl, rfl⟩

/-- C5 counterexample: on a platform with suspend/resume support, a
process that is not stopped (running: no exit code, flag clear) has
`start()` succeed — clearing the flag and sending SIGCONT — rather than
raising any logic error, contrary to the claim. -/
theorem C5_counterexample :
    is_stopped (ProcState.mk none false) = false
    ∧ childStart (Platform.mk true true) (ProcState.mk none false) =
        Except.ok (ProcState.mk none false, [UnixSignal.SIGCONT]) := by
  exact ⟨rfl, rfl⟩

/-- C5 amended: `start()` checks only platform capability — it raises
`OSError` exactly when `SIGCONT` is unsupported, and otherwise succeeds
regardless of the process state, clearing the stopped flag and sending
SIGCONT; it never reports a logic error for being called while not
stopped. -/
theorem C5_start_no_state_check (plat : Platform) (p : ProcState) :
    (plat.hasSIGCONT = true →
      childStart plat p =
        Except.ok ({ p with stoppedFlag := false }, [UnixSignal.SIGCONT]))
    ∧ (plat.hasSIGCONT = false →
      childStart plat p =
        Except.error "No platform support for stopping or starting processes") := by
  constructor
  · intro h
    simp [childStart, h]
  · intro h
    simp [childStart, h]

/-- C5 witness: instantiating the amended theorem on a capable platform
and a finished process. -/
theorem C5_witness :
    childStart (Platform.mk true true) (ProcState.mk (some 0) false) =
      Except.ok (ProcState.mk (some 0) false, [UnixSignal.SIGCONT]) :=
  (C5_start_no_state_check (Platform.mk true true) (ProcState.mk (some 0) false)).1 rfl

/-! ## Claim theorems: string stdin payload -/

/-- C2 counterexample: with the concrete payload "x", the only action
`__init__` performs after `Popen` returns is the write — the stdin pipe
is never closed, contrary to the claim that the write end is closed
after the payload is written. -/
theorem C2_counterexample :
    childInitPostSpawnActions (StdinVal.str "x") =
        [PostSpawnAction.writeStdin (StdinVal.str "x")]
    ∧ PostSpawnAction.closeStdin ∉ childInitPostSpawnActions (StdinVal.str "x") := by
  exact ⟨rfl, by decide⟩

/-- C2 amended: a string stdin payload is written to the stdin pipe
immediately after the process starts when it is non-empty (an empty
payload is falsy, so nothing is written); in no case is the write end
closed — the stdin pipe stays open and remains caller-writable. -/
theorem C2_string_stdin_written_not_closed (s : String) :
    (childInitPostSpawnActions (StdinVal.str s) =
      if s = "" then [] else [PostSpawnAction.writeStdin (StdinVal.str s)])
    ∧ PostSpawnAction.closeStdin ∉ childInitPostSpawnActions (StdinVal.str s)
    ∧ stdinWriteable (StdinVal.str s) = true := by
  refine ⟨?_, ?_, rfl⟩
  · by_cases h : s = "" <;>
      simp [childInitPostSpawnActions, make_stdin, pyTruthyStdin, h]
  · by_cases h : s = "" <;>
      simp [childInitPostSpawnActions, make_stdin, pyTruthyStdin, h]

/-! ## Claim theorems: STDOUT sentinel placement -/

/-- C3 counterexample: assigning the `STDOUT` sentinel to the stdout
attribute of a builder succeeds (it is stored), so no configuration
error is raised at assignment time, contrary to the claim. -/
theorem C3_counterexample :
    setStdout defaultBuilder (StreamArg.mode ChildProcessIOMode.STDOUT) =
      Except.ok { defaultBuilder with stdout := StreamVal.mode ChildProcessIOMode.STDOUT } := rfl

/-- C3 amended: only the stdin setter rejects the `STDOUT` sentinel at
assignment time (raising `ValueError`); the stdout setter accepts it
without any error, and at spawn time `_make_stdout` treats `STDOUT`
exactly like `PIPE`. -/
theorem C3_stdout_sentinel_validation (b : ChildProcessBuilder) :
    setStdin b (StdinArg.mode ChildProcessIOMode.STDOUT) =
        Except.error "Cannot pipe the output of a process to its own input"
    ∧ setStdout b (StreamArg.mode ChildProcessIOMode.STDOUT) =
        Except.ok { b with stdout := StreamVal.mode ChildProcessIOMode.STDOUT }
    ∧ make_stdout (StreamVal.mode ChildProcessIOMode.STDOUT) =
        make_stdout (StreamVal.mode ChildProcessIOMode.PIPE) := by
  exact ⟨rfl, rfl, rfl⟩

/-! ## Claim theorems: args setter and emptiness -/

/-- C9 counterexample: the empty pre-tokenized sequence is stored
without any error, so the setter does not fail when the resulting token
list is empty, contrary to the claim. -/
theorem C9_counterexample :
    setArgs defaultBuilder (ArgsArg.list []) =
      Except.ok { defaultBuilder with args := [] } := rfl

/-- C9 amended: the args setter accepts a pre-tokenized sequence or a
POSIX-tokenized string but performs no emptiness check — whatever token
list results (including the empty one) is stored without error; the
only string-input failures are the tokenizer's own (unbalanced quote,
trailing escape). -/
theorem C9_args_setter_no_emptiness_check (b : ChildProcessBuilder)
    (s : String) (toks : List String) :
    (setArgs b (ArgsArg.list []) = Except.ok { b with args := [] })
    ∧ (shlexSplit s = Except.ok toks →
        setArgs b (ArgsArg.str s) = Except.ok { b with args := toks }) := by
  refine ⟨rfl, ?_⟩
  intro h
  simp [setArgs, h]

/-- C9 witness: the empty command-line string tokenizes to the empty
token list and is stored without error. -/
theorem C9_witness :
    setArgs defaultBuilder (ArgsArg.str "") =
      Except.ok { defaultBuilder with args := [] } :=
  (C9_args_setter_no_emptiness_check defaultBuilder "" []).2 rfl

/-! ## Claim theorems: pipe ownership -/

/-- One assignment attempt preserves the ownership invariant. -/
theorem pipeOk_applyPipeOp (pc : PipeConn) (op : PipeOp)
    (h : pipeOk pc = true) : pipeOk (applyPipeOp pc op) = true := by
  obtain ⟨ro, wo⟩ := pc
  cases op with
  | setRead p =>
    cases ro with
    | some a => simpa [applyPipeOp, readOwnerSet] using h
    | none =>
      cases wo with
      | none => simp [applyPipeOp, readOwnerSet, pipeOk]
      | some q =>
        by_cases hq : q = p
        · simp [applyPipeOp, readOwnerSet, hq, pipeOk] at h ⊢
        · simp [applyPipeOp, readOwnerSet, hq, pipeOk]
          intro he
          exact hq he.symm
  | setWrite p =>
    cases wo with
    | some a => simpa [applyPipeOp, writeOwnerSet] using h
    | none =>
      cases ro with
      | none => simp [applyPipeOp, writeOwnerSet, pipeOk]
      | some q =>
        by_cases hq : q = p
        · simp [applyPipeOp, writeOwnerSet, hq, pipeOk] at h ⊢
        · simp [applyPipeOp, writeOwnerSet, hq, pipeOk]

/-- Any sequence of assignment attempts preserves the ownership
invariant. -/
theorem pipeOk_applyPipeOps (ops : List PipeOp) :
    ∀ (pc : PipeConn), pipeOk pc = true → pipeOk (applyPipeOps pc ops) = true := by
  induction ops with
  | nil => intro pc h; exact h
  | cons op rest ih =>
    intro pc h
    exact ih (applyPipeOp pc op) (pipeOk_applyPipeOp pc op h)

/-- C7: assigning a read owner to a pipe that already has one, a write
owner to a pipe that already has one, or an owner that would read and
write the same pipe, raises instead of replacing; consequently, from a
freshly constructed pipe every sequence of assignment attempts keeps
the read and write owners distinct. -/
theorem C7_pipe_ownership (pc : PipeConn) (proc : Nat) (ops : List PipeOp) :
    (pc.read_owner.isSome = true → ∃ e, readOwnerSet pc proc = Except.error e)
    ∧ (pc.write_owner.isSome = true → ∃ e, writeOwnerSet pc proc = Except.error e)
    ∧ (pc.write_owner = some proc → ∃ e, readOwnerSet pc proc = Except.error e)
    ∧ (pc.read_owner = some proc → ∃ e, writeOwnerSet pc proc = Except.error e)
    ∧ pipeOk (applyPipeOps (PipeConn.mk none none) ops) = true := by
  refine ⟨?_, ?_, ?_, ?_, pipeOk_applyPipeOps ops (PipeConn.mk none none) rfl⟩
  · intro h
    exact ⟨"Pipe is already being read by another process", by simp [readOwnerSet, h]⟩
  · intro h
    exact ⟨"Pipe is already being written to by another process", by simp [writeOwnerSet, h]⟩
  · intro h
    by_cases h1 : pc.read_owner.isSome
    · exact ⟨"Pipe is already being read by another process", by simp [readOwnerSet, h1]⟩
    · exact ⟨"A process cannot write to its own input", by simp [readOwnerSet, h1, h]⟩
  · intro h
    by_cases h1 : pc.write_owner.isSome
    · exact ⟨"Pipe is already being written to by another process", by simp [writeOwnerSet, h1]⟩
    · exact ⟨"A process cannot write to its own input", by simp [writeOwnerSet, h1, h]⟩

/-- C7 witness: a pipe already read by process 0 rejects a second
reader, and a concrete assignment sequence on a fresh pipe keeps the
invariant. -/
theorem C7_witness :
    (∃ e, readOwnerSet (PipeConn.mk (some 0) none) 1 = Except.error e)
    ∧ pipeOk (applyPipeOps (PipeConn.mk none none)
        [PipeOp.setRead 0, PipeOp.setWrite 0, PipeOp.setWrite 1]) = true :=
  ⟨(C7_pipe_ownership (PipeConn.mk (some 0) none) 1 []).1 rfl,
   (C7_pipe_ownership (PipeConn.mk (some 0) none) 1
      [PipeOp.setRead 0, PipeOp.setWrite 0, PipeOp.setWrite 1]).2.2.2.2⟩

/-! ## Claim theorems: spawn snapshots vs aliasing -/

/-- C4 counterexample: after a spawn, mutating the builder's env dict in
place (`builder.env[k] = v`, explicitly sanctioned by the env property
documentation) changes the already-spawned process's env echo, because
`spawn()` passed the dict by reference — contrary to the claim that
every field of the spawned process is left unchanged. -/
theorem C4_counterexample :
    procEnvEcho
        (dictSetInPlace (PyHeap.mk [["echo", "a"]] [[("FOO", "bar")]]) 0 "BAZ" "qux")
        (builderSpawnR (BuilderR.mk 0 0 ".")) ≠
      procEnvEcho (PyHeap.mk [["echo", "a"]] [[("FOO", "bar")]])
        (builderSpawnR (BuilderR.mk 0 0 ".")) := by decide

/-- C4 amended: `spawn()` hands the created process the builder's
current list/dict objects by reference, not as copies.  Reassigning a
builder field after spawn allocates a fresh object and therefore leaves
the spawned process's echoes unchanged, and the immutable cwd string is
copied by value; but mutating the shared args list or env dict in place
is visible through the spawned process's echoes. -/
theorem C4_spawn_shares_references (h : PyHeap) (b : BuilderR)
    (l2 : List String) (d2 : List (String × String)) (x k v : String) :
    ((builderSpawnR b).argsRef = b.argsRef ∧ (builderSpawnR b).envRef = b.envRef
      ∧ (builderSpawnR b).cwd = b.cwd)
    ∧ (b.argsRef < h.lists.length →
        procArgsEcho (builderSetArgsList h b l2).1 (builderSpawnR b) =
          procArgsEcho h (builderSpawnR b))
    ∧ (b.envRef < h.dicts.length →
        procEnvEcho (builderSetEnvDict h b d2).1 (builderSpawnR b) =
          procEnvEcho h (builderSpawnR b))
    ∧ (b.argsRef < h.lists.length →
        procArgsEcho (listAppendInPlace h b.argsRef x) (builderSpawnR b) =
          procArgsEcho h (builderSpawnR b) ++ [x])
    ∧ (b.envRef < h.dicts.length →
        procEnvEcho (dictSetInPlace h b.envRef k v) (builderSpawnR b) =
          pyDictSetKey (procEnvEcho h (builderSpawnR b)) k v) := by
  refine ⟨⟨rfl, rfl, rfl⟩, ?_, ?_, ?_, ?_⟩
  · intro hlt
    exact getD_append_left h.lists [l2] b.argsRef [] hlt
  · intro hlt
    exact getD_append_left h.dicts [d2] b.envRef [] hlt
  · intro hlt
    exact getD_set_self h.lists b.argsRef _ [] hlt
  · intro hlt
    exact getD_set_self h.dicts b.envRef _ [] hlt

/-- C4 witness: instantiating the amended theorem on a one-object heap:
reassignment leaves the echo alone, in-place append shows through. -/
theorem C4_witness :
    (procArgsEcho
        (builderSetArgsList (PyHeap.mk [["echo", "a"]] [[("FOO", "bar")]])
          (BuilderR.mk 0 0 ".") ["ls"]).1
        (builderSpawnR (BuilderR.mk 0 0 ".")) =
      procArgsEcho (PyHeap.mk [["echo", "a"]] [[("FOO", "bar")]])
        (builderSpawnR (BuilderR.mk 0 0 ".")))
    ∧ (procArgsEcho
        (listAppendInPlace (PyHeap.mk [["echo", "a"]] [[("FOO", "bar")]]) 0 "b")
        (builderSpawnR (BuilderR.mk 0 0 ".")) =
      procArgsEcho (PyHeap.mk [["echo", "a"]] [[("FOO", "bar")]])
        (builderSpawnR (BuilderR.mk 0 0 ".")) ++ ["b"]) :=
  ⟨(C4_spawn_shares_references (PyHeap.mk [["echo", "a"]] [[("FOO", "bar")]])
      (BuilderR.mk 0 0 ".") ["ls"] [] "b" "k" "v").2.1 (by decide),
   (C4_spawn_shares_references (PyHeap.mk [["echo", "a"]] [[("FOO", "bar")]])
      (BuilderR.mk 0 0 ".") ["ls"] [] "b" "k" "v").2.2.2.1 (by decide)⟩

/-! ## Claim theorems: stream accessors -/

/-- C8 counterexample: the stdout setter accepts the `STDOUT` sentinel,
and the resulting spawned process has a readable stdout accessor even
though its resolved stdout disposition is not `Piped` — contrary to the
claimed "stdout accessible exactly when Piped". -/
theorem C8_counterexample :
    setStdout defaultBuilder (StreamArg.mode ChildProcessIOMode.STDOUT) =
        Except.ok { defaultBuilder with stdout := StreamVal.mode ChildProcessIOMode.STDOUT }
    ∧ (cpbSpawn { defaultBuilder with stdout := StreamVal.mode ChildProcessIOMode.STDOUT }
        0).stdoutDisp ≠ StreamVal.mode ChildProcessIOMode.PIPE
    ∧ procStdoutGet
        (cpbSpawn { defaultBuilder with stdout := StreamVal.mode ChildProcessIOMode.STDOUT } 0) =
      Except.ok (Handle.procStdout 0 true) := by
  exact ⟨rfl, by decide, rfl⟩

/-- C8 amended: each accessor raises exactly when its accessibility
flag is false and otherwise returns the bound endpoint; the flags are
determined by the spawn-time disposition as follows — stdin is
accessible exactly for `Piped` or a string payload, stdout exactly for
`Piped` or the `STDOUT` (merge) sentinel, and stderr exactly for
`Piped`. -/
theorem C8_accessor_availability (sin : StdinVal) (sout serr : StreamVal)
    (p : SpawnedProc) :
    (sin ≠ StdinVal.mode ChildProcessIOMode.STDOUT →
      (stdinWriteable sin = true ↔
        (sin = StdinVal.mode ChildProcessIOMode.PIPE ∨ ∃ s, sin = StdinVal.str s)))
    ∧ (stdoutReadable sout = true ↔
        (sout = StreamVal.mode ChildProcessIOMode.PIPE
          ∨ sout = StreamVal.mode ChildProcessIOMode.STDOUT))
    ∧ (stderrReadable serr = true ↔ serr = StreamVal.mode ChildProcessIOMode.PIPE)
    ∧ (stdinWriteable p.stdinDisp = false → ∃ e, procStdinGet p = Except.error e)
    ∧ (stdinWriteable p.stdinDisp = true →
        procStdinGet p = Except.ok (Handle.procStdin p.pid))
    ∧ (stdoutReadable p.stdoutDisp = false → ∃ e, procStdoutGet p = Except.error e)
    ∧ (stdoutReadable p.stdoutDisp = true →
        procStdoutGet p = Except.ok (Handle.procStdout p.pid true))
    ∧ (stderrReadable p.stderrDisp = false → ∃ e, procStderrGet p = Except.error e)
    ∧ (stderrReadable p.stderrDisp = true →
        procStderrGet p = Except.ok (Handle.procStderr p.pid)) := by
  refine ⟨?_, ?_, ?_, ?_, ?_, ?_, ?_, ?_, ?_⟩
  · intro hne
    cases sin with
    | mode d =>
      cases d with
      | PIPE => simp [stdinWriteable, make_stdin]
      | INHERIT => simp [stdinWriteable, make_stdin]
      | NULL => simp [stdinWriteable, make_stdin]
      | STDOUT => exact absurd rfl hne
    | str s => simp [stdinWriteable, make_stdin]
    | handle hh => simp [stdinWriteable, make_stdin]
  · cases sout with
    | mode d => cases d <;> simp [stdoutReadable, make_stdout]
    | handle hh => simp [stdoutReadable, make_stdout]
  · cases serr with
    | mode d => cases d <;> simp [stderrReadable, make_stderr]
    | handle hh => simp [stderrReadable, make_stderr]
  · intro hf
    exact ⟨"The stdin pipe of the process is inaccessible", by simp [procStdinGet, hf]⟩
  · intro ht
    simp [procStdinGet, ht]
  · intro hf
    exact ⟨"The stdout pipe of the process is inaccessible", by simp [procStdoutGet, hf]⟩
  · intro ht
    simp [procStdoutGet, ht]
  · intro hf
    exact ⟨"The stderr pipe of the process is inaccessible", by simp [procStderrGet, hf]⟩
  · intro ht
    simp [procStderrGet, ht]

/-- C8 witness: instantiating the amended theorem — a `Null` stdin has
no accessible handle, and the default-PIPE process exposes its stdin
endpoint. -/
theorem C8_witness :
    (stdinWriteable (StdinVal.mode ChildProcessIOMode.NULL) = true ↔
      (StdinVal.mode ChildProcessIOMode.NULL = StdinVal.mode ChildProcessIOMode.PIPE
        ∨ ∃ s, StdinVal.mode ChildProcessIOMode.NULL = StdinVal.str s))
    ∧ procStdinGet (cpbSpawn defaultBuilder 0) = Except.ok (Handle.procStdin 0) :=
  ⟨(C8_accessor_availability (StdinVal.mode ChildProcessIOMode.NULL)
      (StreamVal.mode ChildProcessIOMode.PIPE) (StreamVal.mode ChildProcessIOMode.PIPE)
      (cpbSpawn defaultBuilder 0)).1 (by decide),
   (C8_accessor_availability (StdinVal.mode ChildProcessIOMode.NULL)
      (StreamVal.mode ChildProcessIOMode.PIPE) (StreamVal.mode ChildProcessIOMode.PIPE)
      (cpbSpawn defaultBuilder 0)).2.2.2.2.1 rfl⟩

/-! ## Claim theorems: pipeline command splitting -/

/-- The Python-style splitter never returns an empty segment list. -/
theorem splitOnCharL_ne_nil (sep : Char) (l : List Char) :
    splitOnCharL sep l ≠ [] := by
  induction l with
  | nil => simp [splitOnCharL]
  | cons c rest ih =>
    unfold splitOnCharL
    by_cases h : c = sep
    · simp [h]
    · simp only [h, if_false]
      cases hs : splitOnCharL sep rest with
      | nil => exact absurd hs ih
      | cons t ts => simp

/-- Splitting a list that does not contain the separator yields the
whole list as the only segment. -/
theorem splitOnCharL_not_mem (sep : Char) (l : List Char) (h : sep ∉ l) :
    splitOnCharL sep l = [l] := by
  induction l with
  | nil => rfl
  | cons c rest ih =>
    rw [List.mem_cons] at h
    push_neg at h
    obtain ⟨h1, h2⟩ := h
    have hc : ¬ c = sep := fun he => h1 he.symm
    unfold splitOnCharL
    simp only [hc, if_false]
    rw [ih h2]

/-- C10: a string supplied as the pipeline command list is split at
every literal pipe character with no quote or escape awareness; hence a
double-quoted argument containing a pipe is split across two commands,
and a string without a pipe yields a single-command pipeline. -/
theorem C10_commands_literal_pipe_split (s : String) :
    pipelineSetCommands (PipelineCommandsArg.str s) =
        Except.ok ((pySplitPipe s).map Cmd.str)
    ∧ ('|' ∉ s.toList → pySplitPipe s = [s])
    ∧ pySplitPipe "echo \"a|b\"" = ["echo \"a", "b\""] := by
  refine ⟨?_, ?_, by decide⟩
  · have h1 := splitOnCharL_ne_nil '|' s.toList
    cases hs : splitOnCharL '|' s.toList with
    | nil => exact absurd hs h1
    | cons t ts =>
      have hs2 : splitOnCharL '|' s.data = t :: ts := hs
      simp [pipelineSetCommands, pySplitPipe, hs2]
  · intro h
    unfold pySplitPipe
    rw [splitOnCharL_not_mem '|' s.toList h]
    simp

/-- C10 witness: a pipe-free string yields exactly one command. -/
theorem C10_witness : pySplitPipe "abc" = ["abc"] :=
  (C10_commands_literal_pipe_split "abc").2.1 (by decide)

/-! ## Claim theorems: pipeline composition -/

/-- Characterization of a successful `builder.args = command`
assignment: the stored tokens are the command's tokenization and no
other field moves. -/
theorem setArgs_cmd_ok (b b1 : ChildProcessBuilder) (c : Cmd)
    (h : setArgs b (argsArgOfCmd c) = Except.ok b1) :
    tokenizeCmd c = Except.ok b1.args ∧ b1.env = b.env ∧ b1.cwd = b.cwd
    ∧ b1.stdin = b.stdin ∧ b1.stdout = b.stdout ∧ b1.stderr = b.stderr := by
  cases c with
  | str s =>
    simp only [argsArgOfCmd, setArgs] at h
    cases hs : shlexSplit s with
    | ok toks =>
      rw [hs] at h
      simp only [Except.ok.injEq] at h
      subst h
      simp [tokenizeCmd, hs]
    | error e =>
      rw [hs] at h
      exact absurd h (by simp)
  | toks l =>
    simp only [argsArgOfCmd, setArgs, Except.ok.injEq] at h
    subst h
    simp [tokenizeCmd]

/-- Characterization of a successful `builder.stdin = value` assignment
from a stored stdin value: the stored disposition is the raw-unwrapped
value and no other field moves. -/
theorem setStdin_val_ok (b b1 : ChildProcessBuilder) (v : StdinVal)
    (h : setStdin b (stdinArgOfVal v) = Except.ok b1) :
    b1.stdin = storedStdin v ∧ b1.args = b.args ∧ b1.env = b.env ∧ b1.cwd = b.cwd
    ∧ b1.stdout = b.stdout ∧ b1.stderr = b.stderr := by
  cases v with
  | mode d =>
    cases d with
    | PIPE =>
      rw [show stdinArgOfVal (StdinVal.mode ChildProcessIOMode.PIPE) =
          StdinArg.mode ChildProcessIOMode.PIPE from rfl] at h
      simp only [setStdin] at h
      rw [if_neg (by decide :
          ¬ (ChildProcessIOMode.PIPE = ChildProcessIOMode.STDOUT))] at h
      simp only [Except.ok.injEq] at h
      subst h
      simp [storedStdin]
    | INHERIT =>
      rw [show stdinArgOfVal (StdinVal.mode ChildProcessIOMode.INHERIT) =
          StdinArg.mode ChildProcessIOMode.INHERIT from rfl] at h
      simp only [setStdin] at h
      rw [if_neg (by decide :
          ¬ (ChildProcessIOMode.INHERIT = ChildProcessIOMode.STDOUT))] at h
      simp only [Except.ok.injEq] at h
      subst h
      simp [storedStdin]
    | NULL =>
      rw [show stdinArgOfVal (StdinVal.mode ChildProcessIOMode.NULL) =
          StdinArg.mode ChildProcessIOMode.NULL from rfl] at h
      simp only [setStdin] at h
      rw [if_neg (by decide :
          ¬ (ChildProcessIOMode.NULL = ChildProcessIOMode.STDOUT))] at h
      simp only [Except.ok.injEq] at h
      subst h
      simp [storedStdin]
    | STDOUT =>
      simp [stdinArgOfVal, setStdin] at h
  | str s =>
    simp only [stdinArgOfVal, setStdin, Except.ok.injEq] at h
    subst h
    simp [storedStdin]
  | handle hh =>
    simp only [stdinArgOfVal, setStdin] at h
    by_cases hb : hh.isBuffered = true
    · rw [if_pos hb] at h
      simp only [Except.ok.injEq] at h
      subst h
      simp [storedStdin, hb]
    · rw [if_neg hb] at h
      simp only [Except.ok.injEq] at h
      subst h
      simp [storedStdin, hb]

/-- Characterization of `builder.stdout = value` from a stored stream
value: always succeeds and stores the value as given. -/
theorem setStdout_val (b : ChildProcessBuilder) (v : StreamVal) :
    setStdout b (streamArgOfVal v) = Except.ok { b with stdout := v } := by
  cases v <;> rfl

/-- A successful stdout accessor returns the buffered reader endpoint
of the process's stdout pipe. -/
theorem procStdoutGet_ok (p : SpawnedProc) (hd : Handle)
    (h : procStdoutGet p = Except.ok hd) : hd = Handle.procStdout p.pid true := by
  unfold procStdoutGet at h
  by_cases hr : stdoutReadable p.stdoutDisp = true
  · rw [if_pos hr] at h
    simp only [Except.ok.injEq] at h
    exact h.symm
  · rw [if_neg hr] at h
    exact absurd h (by simp)

/-- The `ChildProcessBuilder` that `spawn_all` constructs up front:
empty args, the pipeline's env/cwd/stderr, PIPE stdin and stdout. -/
theorem mkCPB_pipeline (env : List (String × String)) (cwd : String) (v : StreamVal) :
    mkChildProcessBuilder (ArgsArg.list []) env cwd StdinArg.pynone StreamArg.pynone
        (streamArgOfVal v) =
      Except.ok (ChildProcessBuilder.mk [] env cwd
        (StdinVal.mode ChildProcessIOMode.PIPE)
        (StreamVal.mode ChildProcessIOMode.PIPE) v) := by
  cases v <;> rfl

/-- Invariant of the `spawn_all` loop over the non-final commands: on
success, the builder's shared fields are untouched, pids count up from
the entry pid in command order, each spawned process carries the shared
env/cwd/stderr, a `Piped` stdout and its command's tokens, the first
new process reads from the entry cursor, every later one reads from its
predecessor's stdout pipe, and the exit cursor is the last new
process's stdout (buffered) endpoint. -/
theorem spawnAllLoop_ok :
    ∀ (cmds : List Cmd) (b : ChildProcessBuilder) (ni : StdinVal) (pid : Nat)
      (res : List SpawnedProc) (b2 : ChildProcessBuilder) (ni2 : StdinVal)
      (pid2 : Nat) (res2 : List SpawnedProc),
      spawnAllLoop cmds b ni pid res = Except.ok (b2, ni2, pid2, res2) →
      (b2.env = b.env ∧ b2.cwd = b.cwd ∧ b2.stdout = b.stdout ∧ b2.stderr = b.stderr)
      ∧ pid2 = pid + cmds.length
      ∧ res2.length = res.length + cmds.length
      ∧ (∀ j, j < res.length → res2.getD j dummyProc = res.getD j dummyProc)
      ∧ (∀ j, j < cmds.length →
          (res2.getD (res.length + j) dummyProc).pid = pid + j
          ∧ (res2.getD (res.length + j) dummyProc).env = b.env
          ∧ (res2.getD (res.length + j) dummyProc).cwd = b.cwd
          ∧ (res2.getD (res.length + j) dummyProc).stdoutDisp = b.stdout
          ∧ (res2.getD (res.length + j) dummyProc).stderrDisp = b.stderr
          ∧ tokenizeCmd (cmds.getD j (Cmd.toks [])) =
              Except.ok ((res2.getD (res.length + j) dummyProc).args)
          ∧ (res2.getD (res.length + j) dummyProc).stdinDisp =
              (if j = 0 then storedStdin ni
               else StdinVal.handle (Handle.procStdout (pid + (j - 1)) false)))
      ∧ ni2 = (if cmds.length = 0 then ni
               else StdinVal.handle (Handle.procStdout (pid + (cmds.length - 1)) true)) := by
  intro cmds
  induction cmds with
  | nil =>
    intro b ni pid res b2 ni2 pid2 res2 h
    simp only [spawnAllLoop, Except.ok.injEq, Prod.mk.injEq] at h
    obtain ⟨hb, hni, hpid, hres⟩ := h
    subst hb; subst hni; subst hpid; subst hres
    refine ⟨⟨rfl, rfl, rfl, rfl⟩, by simp, by simp, ?_, ?_, by simp⟩
    · intro j hj; rfl
    · intro j hj; exact absurd hj (by simp)
  | cons c rest ih =>
    intro b ni pid res b2 ni2 pid2 res2 h
    simp only [spawnAllLoop] at h
    split at h
    · exact absurd h (by simp)
    · rename_i bA hsa
      split at h
      · exact absurd h (by simp)
      · rename_i bB hsi
        split at h
        · exact absurd h (by simp)
        · rename_i hd hg
          have hhd : hd = Handle.procStdout pid true := by
            have h2 := procStdoutGet_ok (cpbSpawn bB pid) hd hg
            simpa [cpbSpawn] using h2
          subst hhd
          obtain ⟨htok, hAenv, hAcwd, hAstdin, hAstdout, hAstderr⟩ :=
            setArgs_cmd_ok b bA c hsa
          obtain ⟨hBstdin, hBargs, hBenv, hBcwd, hBstdout, hBstderr⟩ :=
            setStdin_val_ok bA bB ni hsi
          obtain ⟨⟨h2env, h2cwd, h2stdout, h2stderr⟩, h2pid, h2len, h2pre, h2new, h2ni⟩ :=
            ih bB (StdinVal.handle (Handle.procStdout pid true)) (pid + 1)
              (res ++ [cpbSpawn bB pid]) b2 ni2 pid2 res2 h
          have hlen1 : (res ++ [cpbSpawn bB pid]).length = res.length + 1 := by simp
          refine ⟨⟨?_, ?_, ?_, ?_⟩, ?_, ?_, ?_, ?_, ?_⟩
          · rw [h2env, hBenv, hAenv]
          · rw [h2cwd, hBcwd, hAcwd]
          · rw [h2stdout, hBstdout, hAstdout]
          · rw [h2stderr, hBstderr, hAstderr]
          · rw [h2pid]
            simp only [List.length_cons]
            omega
          · rw [h2len, hlen1]
            simp only [List.length_cons]
            omega
          · intro j hj
            have hjlt : j < (res ++ [cpbSpawn bB pid]).length := by rw [hlen1]; omega
            rw [h2pre j hjlt, getD_append_left res [cpbSpawn bB pid] j dummyProc hj]
          · intro j hj
            simp only [List.length_cons] at hj
            cases j with
            | zero =>
              have hel : res2.getD (res.length + 0) dummyProc = cpbSpawn bB pid := by
                have hp := h2pre res.length (by rw [hlen1]; omega)
                have ha := getD_append_add res [cpbSpawn bB pid] 0 dummyProc
                simp only [Nat.add_zero] at ha ⊢
                rw [hp, ha]
                rfl
              rw [hel]
              refine ⟨rfl, ?_, ?_, ?_, ?_, ?_, ?_⟩
              · show bB.env = b.env
                rw [hBenv, hAenv]
              · show bB.cwd = b.cwd
                rw [hBcwd, hAcwd]
              · show bB.stdout = b.stdout
                rw [hBstdout, hAstdout]
              · show bB.stderr = b.stderr
                rw [hBstderr, hAstderr]
              · show tokenizeCmd c = Except.ok bB.args
                rw [hBargs]
                exact htok
              · show bB.stdin = if (0 : Nat) = 0 then storedStdin ni
                    else StdinVal.handle (Handle.procStdout (pid + (0 - 1)) false)
                simpa using hBstdin
            | succ jp =>
              have hjp : jp < rest.length := by omega
              have hidx : res.length + (jp + 1) = (res ++ [cpbSpawn bB pid]).length + jp := by
                rw [hlen1]; omega
              rw [hidx]
              obtain ⟨hn1, hn2, hn3, hn4, hn5, hn6, hn7⟩ := h2new jp hjp
              refine ⟨?_, ?_, ?_, ?_, ?_, ?_, ?_⟩
              · rw [hn1]; omega
              · rw [hn2, hBenv, hAenv]
              · rw [hn3, hBcwd, hAcwd]
              · rw [hn4, hBstdout, hAstdout]
              · rw [hn5, hBstderr, hAstderr]
              · exact hn6
              · rw [hn7]
                by_cases hz : jp = 0
                · subst hz
                  simp [storedStdin, Handle.isBuffered, Handle.raw]
                · rw [if_neg hz, if_neg (by omega : ¬ (jp + 1 = 0))]
                  simp only [StdinVal.handle.injEq, Handle.procStdout.injEq, and_true]
                  omega
          · rw [h2ni]
            simp only [List.length_cons]
            by_cases hz : rest.length = 0
            · rw [if_pos hz, if_neg (by omega : ¬ (rest.length + 1 = 0))]
              simp [hz]
            · rw [if_neg hz, if_neg (by omega : ¬ (rest.length + 1 = 0))]
              simp only [StdinVal.handle.injEq, Handle.procStdout.injEq, and_true]
              omega

/-- C1: for every non-empty command sequence, a successful `spawn_all`
spawns one process per command in the given order (pids record the
spawn order; index 0 is first in the pipe); every process shares the
pipeline's env, cwd and stderr; every process but the last is built
with a `Piped` stdout while the last gets the pipeline's configured
stdout; the first process's stdin is the pipeline's configured stdin
(as the stdin setter stores it) and every later process's stdin is the
raw endpoint of its predecessor's stdout pipe — so each connection is
in place in the spec of process i+1 before it is spawned; and each
process carries the tokens of its own command. -/
theorem C1_spawn_all_wiring (pb : PipelineBuilder) (procs : List SpawnedProc)
    (h : spawnAll pb = Except.ok procs) :
    procs.length = pb.commands.length
    ∧ (∀ i, i < procs.length → (procs.getD i dummyProc).pid = i)
    ∧ (∀ i, i < procs.length →
        (procs.getD i dummyProc).env = pb.env
        ∧ (procs.getD i dummyProc).cwd = pb.cwd
        ∧ (procs.getD i dummyProc).stderrDisp = pb.stderr)
    ∧ (∀ i, i + 1 < procs.length →
        (procs.getD i dummyProc).stdoutDisp = StreamVal.mode ChildProcessIOMode.PIPE)
    ∧ (procs.getD (procs.length - 1) dummyProc).stdoutDisp = pb.stdout
    ∧ (procs.getD 0 dummyProc).stdinDisp = storedStdin pb.stdin
    ∧ (∀ i, 0 < i → i < procs.length →
        (procs.getD i dummyProc).stdinDisp =
          StdinVal.handle (Handle.procStdout (i - 1) false))
    ∧ (∀ i, i < procs.length →
        tokenizeCmd (pb.commands.getD i (Cmd.toks [])) =
          Except.ok ((procs.getD i dummyProc).args)) := by
  unfold spawnAll at h
  split at h
  · exact absurd h (by simp)
  · rename_i b0 hmk
    rw [mkCPB_pipeline pb.env pb.cwd pb.stderr] at hmk
    simp only [Except.ok.injEq] at hmk
    subst hmk
    split at h
    · exact absurd h (by simp)
    · rename_i bL niL pidL resL hloop
      split at h
      · exact absurd h (by simp)
      · rename_i last hlast
        split at h
        · exact absurd h (by simp)
        · rename_i cA hsa
          split at h
          · exact absurd h (by simp)
          · rename_i cB hsi
            split at h
            · exact absurd h (by simp)
            · rename_i cC hso
              rw [setStdout_val cB pb.stdout] at hso
              simp only [Except.ok.injEq] at hso
              subst hso
              simp only [Except.ok.injEq] at h
              subst h
              obtain ⟨⟨hLenv, hLcwd, hLstdout, hLstderr⟩, hLpid, hLlen, hLpre, hLnew, hLni⟩ :=
                spawnAllLoop_ok pb.commands.dropLast _ pb.stdin 0 [] bL niL pidL resL hloop
              simp only [List.length_nil, Nat.zero_add] at hLpid hLlen hLnew hLni
              have hLenv2 : bL.env = pb.env := hLenv
              have hLcwd2 : bL.cwd = pb.cwd := hLcwd
              have hLstdout2 : bL.stdout = StreamVal.mode ChildProcessIOMode.PIPE := hLstdout
              have hLstderr2 : bL.stderr = pb.stderr := hLstderr
              obtain ⟨htokA, hAenv, hAcwd, hAstdin, hAstdout, hAstderr⟩ :=
                setArgs_cmd_ok bL cA last hsa
              obtain ⟨hBstdin, hBargs, hBenv, hBcwd, hBstdout, hBstderr⟩ :=
                setStdin_val_ok cA cB niL hsi
              have hne : pb.commands ≠ [] := getLast?_some_ne_nil _ _ hlast
              have hn1 : 1 ≤ pb.commands.length := by
                have hz : pb.commands.length ≠ 0 := by
                  intro h0
                  exact hne (List.length_eq_zero.mp h0)
                omega
              have hdll : pb.commands.dropLast.length = pb.commands.length - 1 := by
                simp [List.length_dropLast]
              have hreslen : resL.length = pb.commands.length - 1 := by
                rw [hLlen, hdll]
              have hpidL2 : pidL = pb.commands.length - 1 := by
                rw [hLpid, hdll]
              have hplen :
                  (resL ++ [cpbSpawn { cB with stdout := pb.stdout } pidL]).length =
                    pb.commands.length := by
                simp only [List.length_append, List.length_cons, List.length_nil, hreslen]
                omega
              have hgetlt : ∀ i, i < pb.commands.length - 1 →
                  (resL ++ [cpbSpawn { cB with stdout := pb.stdout } pidL]).getD i dummyProc =
                    resL.getD i dummyProc := by
                intro i hi
                exact getD_append_left resL _ i dummyProc (by omega)
              have hgetlast :
                  (resL ++ [cpbSpawn { cB with stdout := pb.stdout } pidL]).getD
                      (pb.commands.length - 1) dummyProc =
                    cpbSpawn { cB with stdout := pb.stdout } pidL := by
                have ha := getD_append_add resL
                  [cpbSpawn { cB with stdout := pb.stdout } pidL] 0 dummyProc
                simp only [Nat.add_zero] at ha
                rw [show pb.commands.length - 1 = resL.length from by omega, ha]
                rfl
              have hCenv : ({ cB with stdout := pb.stdout } : ChildProcessBuilder).env = pb.env := by
                show cB.env = pb.env
                rw [hBenv, hAenv, hLenv2]
              have hCcwd : ({ cB with stdout := pb.stdout } : ChildProcessBuilder).cwd = pb.cwd := by
                show cB.cwd = pb.cwd
                rw [hBcwd, hAcwd, hLcwd2]
              have hCstderr :
                  ({ cB with stdout := pb.stdout } : ChildProcessBuilder).stderr = pb.stderr := by
                show cB.stderr = pb.stderr
                rw [hBstderr, hAstderr, hLstderr2]
              refine ⟨hplen, ?_, ?_, ?_, ?_, ?_, ?_, ?_⟩
              · intro i hi
                rw [hplen] at hi
                by_cases hilt : i < pb.commands.length - 1
                · rw [hgetlt i hilt]
                  exact (hLnew i (by omega)).1
                · have hieq : i = pb.commands.length - 1 := by omega
                  subst hieq
                  rw [hgetlast]
                  show pidL = pb.commands.length - 1
                  exact hpidL2
              · intro i hi
                rw [hplen] at hi
                by_cases hilt : i < pb.commands.length - 1
                · rw [hgetlt i hilt]
                  obtain ⟨-, he, hc, -, hs, -, -⟩ := hLnew i (by omega)
                  exact ⟨he, hc, hs⟩
                · have hieq : i = pb.commands.length - 1 := by omega
                  subst hieq
                  rw [hgetlast]
                  exact ⟨hCenv, hCcwd, hCstderr⟩
              · intro i hi
                rw [hplen] at hi
                have hilt : i < pb.commands.length - 1 := by omega
                rw [hgetlt i hilt]
                exact (hLnew i (by omega)).2.2.2.1
              · rw [hplen, hgetlast]
                rfl
              · by_cases hone : pb.commands.length = 1
                · have h0 : (0 : Nat) = pb.commands.length - 1 := by omega
                  rw [h0, hgetlast]
                  show cB.stdin = storedStdin pb.stdin
                  rw [hBstdin]
                  have hz : pb.commands.dropLast.length = 0 := by omega
                  rw [hLni, if_pos hz]
                · have hlt : 0 < pb.commands.length - 1 := by omega
                  rw [hgetlt 0 hlt]
                  have hx := (hLnew 0 (by omega)).2.2.2.2.2.2
                  simpa using hx
              · intro i h0i hi
                rw [hplen] at hi
                by_cases hilt : i < pb.commands.length - 1
                · rw [hgetlt i hilt]
                  have hx := (hLnew i (by omega)).2.2.2.2.2.2
                  rw [if_neg (by omega : ¬ i = 0)] at hx
                  exact hx
                · have hieq : i = pb.commands.length - 1 := by omega
                  subst hieq
                  rw [hgetlast]
                  show cB.stdin =
                    StdinVal.handle (Handle.procStdout (pb.commands.length - 1 - 1) false)
                  rw [hBstdin, hLni,
                    if_neg (show ¬ pb.commands.dropLast.length = 0 from by omega)]
                  have hss : storedStdin (StdinVal.handle
                      (Handle.procStdout (pb.commands.dropLast.length - 1) true)) =
                      StdinVal.handle
                        (Handle.procStdout (pb.commands.dropLast.length - 1) false) := rfl
                  rw [hss]
                  simp only [StdinVal.handle.injEq, Handle.procStdout.injEq, and_true]
                  omega
              · intro i hi
                rw [hplen] at hi
                by_cases hilt : i < pb.commands.length - 1
                · rw [hgetlt i hilt]
                  have hdg := getD_dropLast pb.commands i (Cmd.toks []) (by omega)
                  rw [← hdg]
                  exact (hLnew i (by omega)).2.2.2.2.2.1
                · have hieq : i = pb.commands.length - 1 := by omega
                  subst hieq
                  rw [hgetlast]
                  show tokenizeCmd (pb.commands.getD (pb.commands.length - 1) (Cmd.toks [])) =
                    Except.ok cB.args
                  rw [getLast?_getD pb.commands last (Cmd.toks []) hlast, hBargs]
                  exact htokA

/-- C1 witness: `spawn_all` on the concrete two-stage pipeline produces
the expected wired processes, and the theorem applies to them. -/
theorem C1_witness :
    spawnAll pbEx = Except.ok procsEx ∧ procsEx.length = pbEx.commands.length :=
  ⟨rfl, (C1_spawn_all_wiring pbEx procsEx rfl).1⟩
